import Mathlib

/-!
Verification development for the stateful decode-session manager of the
srsRAN-matlab MEX layer.

The definitions below are shallow embeddings of the C++ sources:

* `memento_storage` operations (`store`, `get_memento`, `release_memento`) embed
  `+srsMEX/source/include/srsran_matlab/support/memento.h`.  The storage is a
  `std::map<size_t, std::shared_ptr<memento>>`, embedded as an association list
  with unique keys; `std::map::emplace` inserts only when the key is absent.
  The checksum `std::hash<std::shared_ptr<memento>>` hashes the pointer
  identity of the memento; it is embedded as an explicit function parameter
  `hash`, since its concrete value is implementation defined (collisions are
  permitted by the C++ standard).  Null `shared_ptr`s are embedded as `Option`.
* The PUSCH decoder MEX methods (`method_new`, `method_step`,
  `method_reset_crcs`, `method_release`) embed
  `+srsMEX/source/lib/phy/upper/channel_processors/pusch_decoder_mex.cpp`.
  A `mex_abort` path is embedded as an `Except.error`: the call aborts and the
  caller's state (handle store and pools) is left unchanged.
* The receive-buffer pool (`reserve` and its helpers) is external srsran
  library code (`srsran/phy/upper/rx_buffer_pool.h`), not part of this
  repository's sources; it is modelled from the spec (see the doc comments).
* The segmentation-size function `ldpc::compute_nof_codeblocks` and the decode
  engine are external collaborators declared black boxes by the spec; they are
  embedded as function parameters (`expectedFn`, `decodeFn`).
* The command dispatcher (`create_callback`, `dispatch`) embeds
  `+srsMEX/source/include/srsran_matlab/srsran_mex_dispatcher.h`.
-/

namespace SrsranMatlab

/-! ## Association-list map with unique keys (embedding of `std::map`) -/

/-- Lookup of the value bound to key `k`, first match.  Embeds `std::map::find`
on a map whose keys are unique. -/
def lookupKey {α : Type _} {β : Type _} [DecidableEq α] : List (α × β) → α → Option β
  | [], _ => none
  | (k', m) :: rest, k => if k' = k then some m else lookupKey rest k

/-- Removal of the entry bound to key `k` (first match).  Embeds
`std::map::erase` on a map whose keys are unique. -/
def eraseKey {α : Type _} {β : Type _} [DecidableEq α] : List (α × β) → α → List (α × β)
  | [], _ => []
  | (k', m) :: rest, k => if k' = k then rest else (k', m) :: eraseKey rest k

/-- Insertion that leaves the map unchanged when the key is already bound.
Embeds `std::map::emplace` (which does not overwrite an existing entry). -/
def emplace {α : Type _} {β : Type _} [DecidableEq α] (s : List (α × β)) (k : α) (m : β) :
    List (α × β) :=
  if (lookupKey s k).isSome then s else (k, m) :: s

/-- Replacement of the value bound to key `k` by `m` (all matches).  Used to
embed in-place mutation of the pool owned by the memento stored at `k`. -/
def setKey {α : Type _} {β : Type _} [DecidableEq α] (s : List (α × β)) (k : α) (m : β) :
    List (α × β) :=
  s.map (fun kv => if kv.1 = k then (k, m) else kv)

/-! ## Handle store: `memento_storage` (memento.h) -/

/-- Error raised by `memento_storage::store` via `srsran_assert` on a null
memento. -/
inductive storage_error
  | invalid_argument
deriving DecidableEq

/-- Embeds `memento_storage::store` (memento.h:47-53): asserts the memento is
not null, computes the key as the checksum of the memento, emplaces the
(key, memento) pair and returns the key. -/
def store {μ : Type _} (hash : μ → Nat) (s : List (Nat × μ)) (mem : Option μ) :
    Except storage_error (Nat × List (Nat × μ)) :=
  match mem with
  | none => .error .invalid_argument
  | some m => .ok (hash m, emplace s (hash m) m)

/-- Embeds `memento_storage::get_memento` (memento.h:56-68): finds the entry at
`k`; absence yields `none`; otherwise the checksum of the stored memento is
recomputed and compared with `k`, a mismatch also yielding `none`. -/
def get_memento {μ : Type _} (hash : μ → Nat) (s : List (Nat × μ)) (k : Nat) : Option μ :=
  match lookupKey s k with
  | none => none
  | some m => if hash m = k then some m else none

/-- Embeds `memento_storage::release_memento` (memento.h:72): erases the entry
at `k` and returns the number of erased entries (1 if present, 0 otherwise)
together with the updated storage. -/
def release_memento {μ : Type _} (s : List (Nat × μ)) (k : Nat) : Nat × List (Nat × μ) :=
  if (lookupKey s k).isSome then (1, eraseKey s k) else (0, s)

/-- Well-formedness of a storage state: every entry's key is the checksum of
the memento it binds.  Every state reachable through `store` alone satisfies
this, since `store` emplaces at key `hash m`. -/
def storageWF {μ : Type _} (hash : μ → Nat) (s : List (Nat × μ)) : Prop :=
  ∀ p ∈ s, hash p.2 = p.1

/-! ## Receive-buffer pool

The pool that owns the combining buffers is `srsran::rx_buffer_pool`, part of
the external srsran physical-layer library and not of this repository's
sources; only its caller (`pusch_decoder_mex.cpp`) is in the sources.  The
definitions in this section are therefore modelled from the spec (sections 3,
4.2). -/

/-- Modelled from the spec: the pool configuration read by `method_new`
(`rx_buffer_pool_config` with fields `max_codeblock_size`, `nof_buffers`,
`nof_codeblocks`, `expire_timeout_slots`). -/
structure rx_buffer_pool_config where
  max_codeblock_size : Nat
  nof_buffers : Nat
  nof_codeblocks : Nat
  expire_timeout_slots : Nat
deriving DecidableEq

/-- Embeds `srsran::trx_buffer_identifier`: the session identifier, a pair of
subscriber identifier (RNTI) and HARQ process identifier. -/
structure trx_buffer_identifier where
  rnti : Nat
  harq : Nat
deriving DecidableEq

/-- Modelled from the spec: one combining buffer, holding its session
identifier, codeblock count, last-touched slot, accumulated soft data (one
accumulator cell per codeblock, abstracting the LLR storage) and per-codeblock
CRC-pass flags. -/
structure combining_buffer where
  id : trx_buffer_identifier
  nof_cb : Nat
  last_slot : Nat
  soft : List Int
  crc : List Bool
deriving DecidableEq

/-- Modelled from the spec: failures of a pool reservation
(`CapacityExceeded`, `CodeblockCountMismatch` with the stored and the declared
counts). -/
inductive pool_error
  | capacity_exceeded
  | codeblock_count_mismatch (stored declared : Nat)
deriving DecidableEq

/-- Sum of the codeblock counts of a list of combining buffers. -/
def cbSum : List combining_buffer → Nat
  | [] => 0
  | b :: rest => b.nof_cb + cbSum rest

/-- Modelled from the spec: a buffer has expired when its age (current slot
minus last-touched slot) exceeds the expiration horizon. -/
def isLive (cfg : rx_buffer_pool_config) (slot : Nat) (b : combining_buffer) : Bool :=
  decide (slot - b.last_slot ≤ cfg.expire_timeout_slots)

/-- Physical reclamation of expired buffers on the allocation path. -/
def dropExpired (cfg : rx_buffer_pool_config) (slot : Nat) (bs : List combining_buffer) :
    List combining_buffer :=
  bs.filter (isLive cfg slot)

/-- The least-recently-touched slot value among the buffers of the list. -/
def lruSlot : List combining_buffer → Nat
  | [] => 0
  | b :: rest => rest.foldl (fun acc x => min acc x.last_slot) b.last_slot

/-- Modelled from the spec: eviction of one least-recently-touched buffer. -/
def dropLRU (bs : List combining_buffer) : List combining_buffer :=
  bs.eraseP (fun b => b.last_slot == lruSlot bs)

/-- Modelled from the spec: repeated least-recently-touched eviction until the
pool can host one more buffer of `n` codeblocks.  The fuel argument bounds the
iteration by the length of the list (each round removes one buffer). -/
def makeRoom (cfg : rx_buffer_pool_config) (n : Nat) : Nat → List combining_buffer →
    List combining_buffer
  | 0, bs => bs
  | fuel + 1, bs =>
    if bs.length + 1 ≤ cfg.nof_buffers ∧ cbSum bs + n ≤ cfg.nof_codeblocks then bs
    else makeRoom cfg n fuel (dropLRU bs)

/-- A freshly allocated combining buffer: cleared soft accumulators and cleared
CRC flags, touched at the current slot. -/
def mkFresh (id : trx_buffer_identifier) (n slot : Nat) : combining_buffer :=
  ⟨id, n, slot, List.replicate n 0, List.replicate n false⟩

/-- The pool state after reclaiming expired buffers and evicting
least-recently-touched buffers until a buffer of `n` codeblocks fits. -/
def roomed (cfg : rx_buffer_pool_config) (n slot : Nat) (bs : List combining_buffer) :
    List combining_buffer :=
  makeRoom cfg n (dropExpired cfg slot bs).length (dropExpired cfg slot bs)

/-- Modelled from the spec: allocation of a new combining buffer.  Fails with
`CapacityExceeded` when the pool can host no buffer at all or when `n` alone
exceeds the total codeblock budget; otherwise reclaims expired buffers, evicts
least-recently-touched buffers while capacity would be exceeded, and inserts
the fresh buffer. -/
def reserveFresh (cfg : rx_buffer_pool_config) (slot : Nat) (id : trx_buffer_identifier)
    (n : Nat) (bs : List combining_buffer) : Except pool_error (List combining_buffer) :=
  if cfg.nof_buffers = 0 ∨ cfg.nof_codeblocks < n then .error .capacity_exceeded
  else if (roomed cfg n slot bs).length + 1 ≤ cfg.nof_buffers ∧
      cbSum (roomed cfg n slot bs) + n ≤ cfg.nof_codeblocks then
    .ok (mkFresh id n slot :: roomed cfg n slot bs)
  else .error .capacity_exceeded

/-- Update of the last-touched slot of the buffer for `id`. -/
def touch (bs : List combining_buffer) (id : trx_buffer_identifier) (slot : Nat) :
    List combining_buffer :=
  bs.map (fun b => if b.id = id then { b with last_slot := slot } else b)

/-- Modelled from the spec: `reserve(session_id, codeblock_count,
is_new_transmission)` (spec 4.2).  A live, non-expired buffer for the session
identifier is reused: on a new transmission its soft data and CRC flags are
cleared and it is re-sized (embedded as removal plus fresh allocation, which
also enforces capacity); on a retransmission a declared count differing from
the stored count fails with `CodeblockCountMismatch`, otherwise the buffer is
returned unchanged with its last-touched slot updated.  Without a live buffer,
a fresh one is allocated. -/
def reserve (cfg : rx_buffer_pool_config) (slot : Nat) (id : trx_buffer_identifier)
    (n : Nat) (is_new_data : Bool) (bs : List combining_buffer) :
    Except pool_error (List combining_buffer) :=
  match bs.find? (fun b => b.id == id && isLive cfg slot b) with
  | some b =>
    if is_new_data then
      reserveFresh cfg slot id n (bs.eraseP (fun x => x.id == id))
    else if n ≠ b.nof_cb then .error (.codeblock_count_mismatch b.nof_cb n)
    else .ok (touch bs id slot)
  | none => reserveFresh cfg slot id n bs

/-- One reservation request against a pool: the current slot, the session
identifier, the declared codeblock count and the new-transmission flag. -/
structure reserve_op where
  slot : Nat
  id : trx_buffer_identifier
  nof_cb : Nat
  is_new_data : Bool

/-- A reservation applied to a pool state: a failed reservation leaves the
pool unchanged (every pool error aborts the mex call). -/
def applyReserve (cfg : rx_buffer_pool_config) (bs : List combining_buffer)
    (op : reserve_op) : List combining_buffer :=
  match reserve cfg op.slot op.id op.nof_cb op.is_new_data bs with
  | .ok bs' => bs'
  | .error _ => bs

/-- The pool state reached from the empty pool by a sequence of
reservations. -/
def runReserves (cfg : rx_buffer_pool_config) (ops : List reserve_op) :
    List combining_buffer :=
  ops.foldl (applyReserve cfg) []

/-- Capacity invariant of a pool state: the number of buffers is within the
configured maximum and so is the total codeblock count. -/
def poolInv (cfg : rx_buffer_pool_config) (bs : List combining_buffer) : Prop :=
  bs.length ≤ cfg.nof_buffers ∧ cbSum bs ≤ cfg.nof_codeblocks

/-! ## PUSCH decoder MEX façade (pusch_decoder_mex.cpp) -/

/-- Embeds `MexFunction::pusch_memento`: the state snapshot holding the
receive-buffer pool (together with the configuration it was created with and
the pointer identity `mid` used by the handle checksum). -/
structure pusch_memento where
  mid : Nat
  cfg : rx_buffer_pool_config
  pool : List combining_buffer
deriving DecidableEq

/-- The state of the PUSCH decoder `MexFunction` object: the memento storage
and a supply of fresh memento identities (embedding the addresses of newly
allocated `shared_ptr`s). -/
structure MexState where
  storage : List (Nat × pusch_memento)
  next_id : Nat
deriving DecidableEq

/-- Checksum of a `pusch_memento`: `std::hash` applied to its pointer
identity, the hash function being implementation defined. -/
def memHash (hashFn : Nat → Nat) : pusch_memento → Nat :=
  fun m => hashFn m.mid

/-- Embeds the `mex_abort` failures of the PUSCH decoder MEX methods, one
constructor per distinct abort site relevant to the session manager. -/
inductive MexError
  | tbsNotByteExact (tbs : Nat)
  | codeblockCountMismatch (supplied expected : Nat)
  | unknownHandle (key : Nat)
  | reserveFailed (key : Nat)
  | releaseNotFound (key : Nat)
deriving DecidableEq

/-- Embeds the LDPC base-graph choice (`srsran::ldpc_base_graph_type`). -/
inductive ldpc_base_graph
  | BG1
  | BG2
deriving DecidableEq

/-- The fields of the `seg_cfg` input structure of `method_step` that the
session manager reads; the remaining fields (modulation, layers, redundancy
version, buffer limit) are passed opaquely to the external decode engine. -/
structure seg_config where
  bgn : ldpc_base_graph
  tbs : Nat
deriving DecidableEq

/-- The fields of the `buf_id` input structure of `method_step` and
`method_reset_crcs`: RNTI, HARQ process identifier and declared codeblock
count. -/
structure buffer_id_config where
  rnti : Nat
  harq : Nat
  nof_codeblocks : Nat
deriving DecidableEq

/-- Result of the external decode engine: the combining buffer after soft
combining, the decoded transport block, the aggregate CRC outcome and the
iteration statistic. -/
structure decode_result where
  buffer : combining_buffer
  tb : List Nat
  crc_ok : Bool
  iterations : Nat

/-- The external decode engine, a black box per the spec: it consumes the soft
bits, the reserved combining buffer and the segmentation configuration. -/
def decode_fn : Type :=
  List Int → combining_buffer → seg_config → decode_result

/-- The statistics record returned by `method_step`. -/
structure step_output where
  tb : List Nat
  crc_ok : Bool
  iterations : Nat

/-- Embeds `MexFunction::method_new` (pusch_decoder_mex.cpp:117-142): builds a
pool from the configuration inside a fresh memento, stores it and returns the
key.  Pool construction (`create_rx_buffer_pool`) yields the empty pool; the
null-memento abort is unreachable since `std::make_shared` never returns
null. -/
def method_new (hashFn : Nat → Nat) (st : MexState) (cfg : rx_buffer_pool_config) :
    Nat × MexState :=
  let mem : pusch_memento := ⟨st.next_id, cfg, []⟩
  match store (memHash hashFn) st.storage (some mem) with
  | .error _ => (0, st)
  | .ok (key, s') => (key, ⟨s', st.next_id + 1⟩)

/-- Embeds `MexFunction::method_step` (pusch_decoder_mex.cpp:144-205) for the
session manager: the byte-exactness check on the transport-block length
(`units::bits::is_byte_exact`, i.e. divisibility by 8), the codeblock-count
check against `ldpc::compute_nof_codeblocks` (the black-box `expectedFn`),
the handle lookup (`retrieve_softbuffer`, aborting when `get_memento` yields
null), the pool reservation at the default slot (the C++ passes `{}` as the
slot), the invocation of the decode engine on the reserved buffer, the
write-back of the combined buffer and the construction of the outputs.
An `Except.error` is a `mex_abort`: the call fails and the state is
unchanged. -/
def method_step (hashFn : Nat → Nat) (expectedFn : Nat → ldpc_base_graph → Nat)
    (decodeFn : decode_fn) (st : MexState) (key : Nat) (llrs : List Int)
    (new_data : Bool) (seg : seg_config) (bid : buffer_id_config) :
    Except MexError (MexState × step_output) :=
  if seg.tbs % 8 ≠ 0 then .error (.tbsNotByteExact seg.tbs)
  else if bid.nof_codeblocks ≠ expectedFn seg.tbs seg.bgn then
    .error (.codeblockCountMismatch bid.nof_codeblocks (expectedFn seg.tbs seg.bgn))
  else
    match get_memento (memHash hashFn) st.storage key with
    | none => .error (.unknownHandle key)
    | some mem =>
      match reserve mem.cfg 0 ⟨bid.rnti, bid.harq⟩ bid.nof_codeblocks new_data mem.pool with
      | .error _ => .error (.reserveFailed key)
      | .ok pool1 =>
        match pool1.find? (fun b => b.id == ⟨bid.rnti, bid.harq⟩) with
        | none => .error (.reserveFailed key)
        | some buf =>
          let r := decodeFn llrs buf seg
          let pool2 := pool1.map (fun b => if b.id = ⟨bid.rnti, bid.harq⟩ then r.buffer else b)
          .ok (⟨setKey st.storage key { mem with pool := pool2 }, st.next_id⟩,
               ⟨r.tb, r.crc_ok, r.iterations⟩)

/-- Embeds `MexFunction::method_reset_crcs` (pusch_decoder_mex.cpp:207-239):
resolves the handle, reserves the buffer with `is_new_data` hard-coded to
`true` ("we reset the CRCs before new transmissions") and resets the
per-codeblock CRC flags of the reserved buffer.  No decode engine is
involved. -/
def method_reset_crcs (hashFn : Nat → Nat) (st : MexState) (key : Nat)
    (bid : buffer_id_config) : Except MexError MexState :=
  match get_memento (memHash hashFn) st.storage key with
  | none => .error (.unknownHandle key)
  | some mem =>
    match reserve mem.cfg 0 ⟨bid.rnti, bid.harq⟩ bid.nof_codeblocks true mem.pool with
    | .error _ => .error (.reserveFailed key)
    | .ok pool1 =>
      let pool2 := pool1.map
        (fun b => if b.id = ⟨bid.rnti, bid.harq⟩
                  then { b with crc := List.replicate b.nof_cb false } else b)
      .ok ⟨setKey st.storage key { mem with pool := pool2 }, st.next_id⟩

/-- Embeds `MexFunction::method_release` (pusch_decoder_mex.cpp:241-260):
erases the memento at `key` and aborts with "Something wrong, there was no
softbuffer pool with softbufferPoolID" when `release_memento` erased
nothing.  The method has no outputs: no count is returned to the caller. -/
def method_release (st : MexState) (key : Nat) : Except MexError MexState :=
  match release_memento st.storage key with
  | (n, s') => if n = 0 then .error (.releaseNotFound key) else .ok ⟨s', st.next_id⟩

/-! ## Command dispatcher (srsran_mex_dispatcher.h) -/

/-- Embeds a MATLAB argument as far as the dispatcher inspects it: a character
array or an opaque payload.  The dispatcher only reads the first input and
only when it is a character array. -/
inductive mex_arg
  | chr (s : String)
  | num (n : Int)
deriving DecidableEq

/-- Embeds the `mex_abort` failures of `srsran_mex_dispatcher`. -/
inductive dispatch_error
  | first_input_not_char
  | unknown_action (name : String)
  | duplicate_action (name : String)

/-- A registered handler: from the full input argument list to the output
argument list, or a `mex_abort` of its own. -/
def handler_fn : Type :=
  List mex_arg → Except dispatch_error (List mex_arg)

/-- Embeds `srsran_mex_dispatcher::create_callback`
(srsran_mex_dispatcher.h:78-85): registering an already-registered name aborts
with "Action ... already exists", otherwise the pair is emplaced. -/
def create_callback (cbs : List (String × handler_fn)) (name : String) (h : handler_fn) :
    Except dispatch_error (List (String × handler_fn)) :=
  match lookupKey cbs name with
  | some _ => .error (.duplicate_action name)
  | none => .ok (cbs ++ [(name, h)])

/-- Embeds `srsran_mex_dispatcher::operator()`
(srsran_mex_dispatcher.h:56-72): the first input must be a character array;
its value selects the registered handler, an unregistered name aborting with
"Unknown action"; the full input list is forwarded to the handler unchanged
and the call's results are whatever the handler produces.  The dispatcher
reads but never modifies the callback table, and holds no session state. -/
def dispatch (cbs : List (String × handler_fn)) (inputs : List mex_arg) :
    Except dispatch_error (List mex_arg) :=
  match inputs with
  | .chr name :: _ =>
    match lookupKey cbs name with
    | none => .error (.unknown_action name)
    | some h => h inputs
  | _ => .error .first_input_not_char

/-! ## Concrete scenario data used by witnesses and counterexamples -/

/-- The pool configuration of the spec's worked scenario: maximum codeblock
size 100, 4 buffers, 16 total codeblocks, 10-slot expiration horizon. -/
def cfg0 : rx_buffer_pool_config :=
  ⟨100, 4, 16, 10⟩

/-- A concrete instance of the black-box decode engine: it returns the
combining buffer unchanged, an empty transport block, a failed CRC and zero
iterations. -/
def dF0 : decode_fn :=
  fun _ b _ => ⟨b, [], false, 0⟩

/-- A concrete instance of the black-box segmentation-size function: every
transport block has one codeblock. -/
def eF1 : Nat → ldpc_base_graph → Nat :=
  fun _ _ => 1

/-- A concrete handler used to exercise the dispatcher: it echoes the inputs
as outputs. -/
def h0 : handler_fn :=
  fun args => .ok args

/-- The name of the pool-creation action. -/
def act_new : String :=
  "new"

/-- An action name registered by no handler. -/
def act_other : String :=
  "x"

/-- A mex state holding one memento with key 7 and an empty pool, for concrete
scenarios (the identity is 7, so the identity hash validates the key). -/
def st7e : MexState :=
  ⟨[(7, ⟨7, cfg0, []⟩)], 1⟩

/-- A mex state holding one memento with key 7 whose pool has a live combining
buffer for session (RNTI 5, HARQ 0) with 2 codeblocks, accumulated soft data
and CRC-pass flags set. -/
def st7 : MexState :=
  ⟨[(7, ⟨7, cfg0, [⟨⟨5, 0⟩, 2, 0, [1, 2], [true, true]⟩]⟩)], 1⟩

/-! ## Helper lemmas -/

lemma lookupKey_mem {α β : Type _} [DecidableEq α] {s : List (α × β)} {k : α} {m : β}
    (h : lookupKey s k = some m) : (k, m) ∈ s := by
  induction s with
  | nil => simp [lookupKey] at h
  | cons p rest ih =>
    obtain ⟨k', m'⟩ := p
    by_cases hk : k' = k
    · subst hk
      simp [lookupKey] at h
      subst h
      exact List.mem_cons_self _ _
    · simp [lookupKey, hk] at h
      exact List.mem_cons_of_mem _ (ih h)

lemma lookupKey_append_right {α β : Type _} [DecidableEq α] (s : List (α × β)) (k : α) (m : β)
    (h : lookupKey s k = none) : lookupKey (s ++ [(k, m)]) k = some m := by
  induction s with
  | nil => simp [lookupKey]
  | cons p rest ih =>
    obtain ⟨k', m'⟩ := p
    by_cases hk : k' = k
    · subst hk
      simp [lookupKey] at h
    · simp [lookupKey, hk] at h ⊢
      exact ih h

lemma lookupKey_setKey {α β : Type _} [DecidableEq α] {s : List (α × β)} {k : α} {m0 : β}
    (h : lookupKey s k = some m0) (m : β) : lookupKey (setKey s k m) k = some m := by
  induction s with
  | nil => simp [lookupKey] at h
  | cons p rest ih =>
    obtain ⟨k', m'⟩ := p
    by_cases hk : k' = k
    · subst hk
      show lookupKey ((if k' = k' then (k', m) else (k', m')) :: setKey rest k' m) k' = some m
      rw [if_pos rfl]
      simp [lookupKey]
    · simp only [lookupKey, if_neg hk] at h
      simp only [setKey, List.map_cons] at ih ⊢
      rw [if_neg (by simpa using hk)]
      simpa [lookupKey, hk] using ih h

lemma lookup_of_get_memento {μ : Type _} {hash : μ → Nat} {s : List (Nat × μ)} {k : Nat}
    {m : μ} (h : get_memento hash s k = some m) : lookupKey s k = some m := by
  unfold get_memento at h
  cases hl : lookupKey s k with
  | none => rw [hl] at h; exact Option.noConfusion h
  | some m' =>
    rw [hl] at h
    dsimp only at h
    by_cases hh : hash m' = k
    · rw [if_pos hh] at h
      exact h
    · rw [if_neg hh] at h
      exact Option.noConfusion h

lemma cbSum_map_of_nof_cb (f : combining_buffer → combining_buffer)
    (hf : ∀ b, (f b).nof_cb = b.nof_cb) (bs : List combining_buffer) :
    cbSum (bs.map f) = cbSum bs := by
  induction bs with
  | nil => rfl
  | cons b rest ih => simp [cbSum, List.map, ih, hf]

lemma cbSum_touch (bs : List combining_buffer) (id : trx_buffer_identifier) (slot : Nat) :
    cbSum (touch bs id slot) = cbSum bs :=
  cbSum_map_of_nof_cb _ (fun b => by by_cases h : b.id = id <;> simp [h]) bs

lemma length_touch (bs : List combining_buffer) (id : trx_buffer_identifier) (slot : Nat) :
    (touch bs id slot).length = bs.length := by
  simp [touch]

lemma reserveFresh_ok_inv {cfg : rx_buffer_pool_config} {slot : Nat}
    {id : trx_buffer_identifier} {n : Nat} {bs bs' : List combining_buffer}
    (h : reserveFresh cfg slot id n bs = .ok bs') : poolInv cfg bs' := by
  unfold reserveFresh at h
  split at h
  · exact absurd h (by simp)
  · split at h
    · rename_i hcap
      injection h with h
      subst h
      refine ⟨?_, ?_⟩
      · simpa [List.length_cons] using hcap.1
      · simpa [cbSum, mkFresh, Nat.add_comm] using hcap.2
    · exact absurd h (by simp)

lemma reserveFresh_ok_shape {cfg : rx_buffer_pool_config} {slot : Nat}
    {id : trx_buffer_identifier} {n : Nat} {bs bs' : List combining_buffer}
    (h : reserveFresh cfg slot id n bs = .ok bs') :
    ∃ rest, bs' = mkFresh id n slot :: rest := by
  unfold reserveFresh at h
  split at h
  · exact absurd h (by simp)
  · split at h
    · injection h with h
      exact ⟨_, h.symm⟩
    · exact absurd h (by simp)

lemma reserve_ok_inv {cfg : rx_buffer_pool_config} {slot : Nat}
    {id : trx_buffer_identifier} {n : Nat} {nd : Bool} {bs bs' : List combining_buffer}
    (hinv : poolInv cfg bs) (h : reserve cfg slot id n nd bs = .ok bs') :
    poolInv cfg bs' := by
  unfold reserve at h
  split at h
  · split at h
    · exact reserveFresh_ok_inv h
    · split at h
      · exact absurd h (by simp)
      · injection h with h
        subst h
        exact ⟨by rw [length_touch]; exact hinv.1, by rw [cbSum_touch]; exact hinv.2⟩
  · exact reserveFresh_ok_inv h

lemma reserve_new_data_shape {cfg : rx_buffer_pool_config} {slot : Nat}
    {id : trx_buffer_identifier} {n : Nat} {bs bs' : List combining_buffer}
    (h : reserve cfg slot id n true bs = .ok bs') :
    ∃ rest, bs' = mkFresh id n slot :: rest := by
  unfold reserve at h
  split at h
  · rw [if_pos rfl] at h
    exact reserveFresh_ok_shape h
  · exact reserveFresh_ok_shape h

lemma applyReserve_inv {cfg : rx_buffer_pool_config} {bs : List combining_buffer}
    (op : reserve_op) (hinv : poolInv cfg bs) : poolInv cfg (applyReserve cfg bs op) := by
  unfold applyReserve
  split
  · exact reserve_ok_inv hinv (by assumption)
  · exact hinv

lemma runReserves_inv (cfg : rx_buffer_pool_config) (ops : List reserve_op) :
    poolInv cfg (runReserves cfg ops) := by
  have base : poolInv cfg [] := ⟨Nat.zero_le _, Nat.zero_le _⟩
  rw [runReserves]
  generalize hbs : ([] : List combining_buffer) = bs at base
  clear hbs
  induction ops generalizing bs with
  | nil => exact base
  | cons op rest ih => exact ih _ (applyReserve_inv op base)

lemma cbSum_filter_le (p : combining_buffer → Bool) (bs : List combining_buffer) :
    cbSum (bs.filter p) ≤ cbSum bs := by
  induction bs with
  | nil => exact Nat.le_refl _
  | cons b rest ih =>
    by_cases h : p b
    · rw [List.filter_cons_of_pos h]
      exact Nat.add_le_add_left ih b.nof_cb
    · rw [List.filter_cons_of_neg (by simpa using h)]
      exact Nat.le_trans ih (Nat.le_add_left _ _)

/-! ## Claim theorems -/

/-- C1: the claim says a second `release` of the same handle reports count 0
to the caller without raising an error.  In the code, a `new` followed by
`release` does erase exactly one memento, but `method_release` returns no
count at all and the second `release` of the same handle aborts with a
`mex_abort` error, even though the underlying
`memento_storage::release_memento` itself returns 0 without error — the
implementation contradicts its own header documentation ("It returns 1 if the
associated softbuffer pool was released, 0 otherwise"). -/
theorem method_release_second_release_aborts :
    method_new (fun n => n) ⟨[], 0⟩ cfg0 = (0, ⟨[(0, ⟨0, cfg0, []⟩)], 1⟩) ∧
    method_release ⟨[(0, ⟨0, cfg0, []⟩)], 1⟩ 0 = .ok ⟨[], 1⟩ ∧
    method_release ⟨[], 1⟩ 0 = .error (.releaseNotFound 0) ∧
    release_memento ([] : List (Nat × pusch_memento)) 0 = (0, []) :=
  ⟨rfl, rfl, rfl, rfl⟩

/-- C2 counterexample: with a colliding checksum function (collisions are
permitted for `std::hash`), storing a second, different memento returns a
handle that passes the lookup-time validation of the first memento's entry
and yields the wrong memento: `emplace` keeps the first entry, so the handle
returned for memento 2 validates and returns memento 1. -/
theorem store_checksum_collision_cx :
    store (fun _ : Nat => 0) [] (some 1) = .ok (0, [(0, 1)]) ∧
    store (fun _ : Nat => 0) [(0, 1)] (some 2) = .ok (0, [(0, 1)]) ∧
    get_memento (fun _ : Nat => 0) [(0, 1)] 0 = some 1 ∧ (1 : Nat) ≠ 2 :=
  ⟨rfl, rfl, rfl, by decide⟩

/-- C2 (amended): provided the checksum function is injective (no two
mementos collide) and every stored entry's key is its memento's checksum,
the handle returned by `store` for a memento looks up exactly that memento,
and the handle computed from any different memento differs from this key, so
it can never validate against this entry. -/
theorem store_handle_valid_for_memento {μ : Type _} (hash : μ → Nat)
    (hinj : Function.Injective hash) (s : List (Nat × μ)) (hwf : storageWF hash s)
    (m : μ) (k : Nat) (s' : List (Nat × μ))
    (hst : store hash s (some m) = .ok (k, s')) :
    get_memento hash s' k = some m ∧ ∀ m2, m2 ≠ m → hash m2 ≠ k := by
  have hpair : (hash m, emplace s (hash m) m) = (k, s') := by
    unfold store at hst
    injection hst
  have hk : k = hash m := (congrArg Prod.fst hpair).symm
  have hs' : s' = emplace s (hash m) m := (congrArg Prod.snd hpair).symm
  subst hk
  subst hs'
  constructor
  · unfold get_memento emplace
    cases hl : lookupKey s (hash m) with
    | none =>
      simp [lookupKey]
    | some m' =>
      have hm' : hash m' = hash m := hwf _ (lookupKey_mem hl)
      have hmm : m' = m := hinj hm'
      subst hmm
      simp [hl]
  · intro m2 hne heq
    exact hne (hinj heq)

/-- C2 witness: the amended theorem applied to the identity checksum on an
empty store with memento 5. -/
theorem store_handle_valid_for_memento_witness :
    get_memento (fun n : Nat => n) [(5, 5)] 5 = some 5 ∧
      ∀ m2 : Nat, m2 ≠ 5 → (fun n : Nat => n) m2 ≠ 5 :=
  store_handle_valid_for_memento (fun n : Nat => n) (fun _ _ h => h) []
    (fun p hp => absurd hp (List.not_mem_nil p)) 5 5 [(5, 5)] rfl

/-- C3 counterexample: for a `step` call whose handle is unknown and whose
declared codeblock count also disagrees with the computed expectation, the
reported failure is the codeblock-count mismatch, not the unknown-handle
error: the count check at pusch_decoder_mex.cpp:173-180 precedes the handle
lookup at lines 182-184. -/
theorem method_step_count_check_precedes_handle_cx :
    get_memento (memHash (fun n : Nat => n)) ([] : List (Nat × pusch_memento)) 99 = none ∧
    method_step (fun n => n) eF1 dF0 ⟨[], 0⟩ 99 [] true ⟨.BG1, 8⟩ ⟨1, 0, 2⟩ =
      .error (.codeblockCountMismatch 2 1) ∧
    MexError.codeblockCountMismatch 2 1 ≠ MexError.unknownHandle 99 :=
  ⟨rfl, rfl, by decide⟩

/-- C3 (amended): `method_step` compares the computed codeblock count against
the caller-supplied one before resolving the handle; the unknown-handle error
is reported exactly when the transport-block length is byte-exact, the counts
agree and the handle store lookup fails. -/
theorem method_step_unknown_handle (hashFn : Nat → Nat)
    (expectedFn : Nat → ldpc_base_graph → Nat) (decodeFn : decode_fn) (st : MexState)
    (key : Nat) (llrs : List Int) (new_data : Bool) (seg : seg_config)
    (bid : buffer_id_config) (h8 : seg.tbs % 8 = 0)
    (hcb : bid.nof_codeblocks = expectedFn seg.tbs seg.bgn)
    (hget : get_memento (memHash hashFn) st.storage key = none) :
    method_step hashFn expectedFn decodeFn st key llrs new_data seg bid =
      .error (.unknownHandle key) := by
  unfold method_step
  rw [if_neg (fun hn => hn h8), if_neg (fun hn => hn hcb), hget]

/-- C3 witness: the amended theorem applied to an empty handle store with key
3, a byte-exact transport block of 8 bits and an agreeing codeblock count. -/
theorem method_step_unknown_handle_witness :
    method_step (fun n => n) eF1 dF0 ⟨[], 0⟩ 3 [] true ⟨.BG1, 8⟩ ⟨1, 0, 1⟩ =
      .error (.unknownHandle 3) :=
  method_step_unknown_handle (fun n => n) eF1 dF0 ⟨[], 0⟩ 3 [] true ⟨.BG1, 8⟩ ⟨1, 0, 1⟩
    (by decide) (by decide) rfl

/-- C4 counterexample: a `step` call whose transport-block length is not
byte-exact and whose declared codeblock count disagrees with the computed
expectation fails with the byte-exactness error, not with
`CodeblockCountMismatch`: the "if and only if" of the claim fails on such
calls. -/
theorem method_step_byte_check_precedes_count_cx :
    method_step (fun n => n) eF1 dF0 ⟨[], 0⟩ 1 [] true ⟨.BG1, 5⟩ ⟨1, 0, 2⟩ =
      .error (.tbsNotByteExact 5) ∧
    2 ≠ eF1 5 .BG1 ∧
    ∀ a b, MexError.tbsNotByteExact 5 ≠ MexError.codeblockCountMismatch a b :=
  ⟨rfl, by decide, fun _ _ h => MexError.noConfusion h⟩

/-- C4 (amended): for every `step` call whose transport-block length is
byte-exact, the call fails with `CodeblockCountMismatch` reporting the
supplied and the computed counts exactly when the caller-supplied codeblock
count differs from the expectation computed from the transport-block size and
base graph; when the counts agree, no `CodeblockCountMismatch` is ever
reported.  The error return models `mex_abort`: on disagreement the call
aborts before the handle lookup, so no buffer is reserved, no decode is
invoked and the state is unchanged (the equation holds for every decode
engine and every state). -/
theorem method_step_count_mismatch_iff (hashFn : Nat → Nat)
    (expectedFn : Nat → ldpc_base_graph → Nat) (decodeFn : decode_fn) (st : MexState)
    (key : Nat) (llrs : List Int) (new_data : Bool) (seg : seg_config)
    (bid : buffer_id_config) (h8 : seg.tbs % 8 = 0) :
    (bid.nof_codeblocks ≠ expectedFn seg.tbs seg.bgn →
      method_step hashFn expectedFn decodeFn st key llrs new_data seg bid =
        .error (.codeblockCountMismatch bid.nof_codeblocks (expectedFn seg.tbs seg.bgn))) ∧
    (bid.nof_codeblocks = expectedFn seg.tbs seg.bgn →
      ∀ a b, method_step hashFn expectedFn decodeFn st key llrs new_data seg bid ≠
        .error (.codeblockCountMismatch a b)) := by
  constructor
  · intro hne
    unfold method_step
    rw [if_neg (fun hn => hn h8), if_pos hne]
  · intro heq a b
    unfold method_step
    rw [if_neg (fun hn => hn h8), if_neg (fun hn => hn heq)]
    cases hget : get_memento (memHash hashFn) st.storage key with
    | none => simp
    | some mem =>
      cases hres :
          reserve mem.cfg 0 ⟨bid.rnti, bid.harq⟩ bid.nof_codeblocks new_data mem.pool with
      | error e => simp [hres]
      | ok pool1 =>
        cases hfind : pool1.find? (fun b => b.id == ⟨bid.rnti, bid.harq⟩) with
        | none => simp [hres, hfind]
        | some buf => simp [hres, hfind]

/-- C4 witness: the amended theorem applied at a byte-exact transport block of
8 bits; with a supplied count of 3 against a computed count of 1, the call
reports the mismatch with both counts. -/
theorem method_step_count_mismatch_iff_witness :
    method_step (fun n => n) eF1 dF0 ⟨[], 0⟩ 5 [] true ⟨.BG1, 8⟩ ⟨1, 0, 3⟩ =
      .error (.codeblockCountMismatch 3 1) :=
  (method_step_count_mismatch_iff (fun n => n) eF1 dF0 ⟨[], 0⟩ 5 [] true ⟨.BG1, 8⟩ ⟨1, 0, 3⟩
    (by decide)).1 (by decide)

/-- C5: for any sequence of reservations against one pool starting from the
empty pool, at any observation slot the number of live (non-expired) buffers
never exceeds the configured maximum number of buffers, and the sum of
codeblock counts across the live buffers never exceeds the configured maximum
total codeblocks.  (The pool is modelled from the spec: `rx_buffer_pool` is
external library code.) -/
theorem pool_capacity_invariant (cfg : rx_buffer_pool_config) (ops : List reserve_op)
    (slot : Nat) :
    ((runReserves cfg ops).filter (isLive cfg slot)).length ≤ cfg.nof_buffers ∧
    cbSum ((runReserves cfg ops).filter (isLive cfg slot)) ≤ cfg.nof_codeblocks := by
  have h := runReserves_inv cfg ops
  exact ⟨Nat.le_trans (List.length_filter_le _ _) h.1,
         Nat.le_trans (cbSum_filter_le _ _) h.2⟩

/-- C6: lookup reports absence of an entry and checksum mismatch of an
existing entry identically: `get_memento` returns the null memento (`none`)
exactly when the key is absent or the recomputed checksum of the stored
memento differs from the presented key — the return type carries no other
failure information, so a caller cannot distinguish the two cases. -/
theorem get_memento_not_found_iff {μ : Type _} (hash : μ → Nat) (s : List (Nat × μ))
    (k : Nat) :
    get_memento hash s k = none ↔
      lookupKey s k = none ∨ ∃ m, lookupKey s k = some m ∧ hash m ≠ k := by
  unfold get_memento
  cases hl : lookupKey s k with
  | none => simp
  | some m => by_cases h : hash m = k <;> simp [h]

/-- C7 counterexample: `reset_crcs` on a known handle with a live combining
buffer clears the buffer's accumulated soft data, contradicting the claim
that the soft data is untouched: the method reserves with the new-data flag
set, which re-creates the buffer with cleared accumulators. -/
theorem method_reset_crcs_clears_soft_cx :
    st7 = ⟨[(7, ⟨7, cfg0, [⟨⟨5, 0⟩, 2, 0, [1, 2], [true, true]⟩]⟩)], 1⟩ ∧
    method_reset_crcs (fun n => n) st7 7 ⟨5, 0, 2⟩ =
      .ok ⟨[(7, ⟨7, cfg0, [⟨⟨5, 0⟩, 2, 0, [0, 0], [false, false]⟩]⟩)], 1⟩ ∧
    ([1, 2] : List Int) ≠ [0, 0] :=
  ⟨rfl, rfl, by decide⟩

/-- C7 (amended): every successful `reset_crcs` call leaves, at the resolved
key, a buffer for the requested session identifier whose per-codeblock
CRC-pass flags are all cleared and whose accumulated soft data is cleared as
well (the buffer is re-reserved as a new transmission, so the soft data is
not preserved); no decode engine is involved (`method_reset_crcs` takes no
decode function). -/
theorem method_reset_crcs_clears_buffer (hashFn : Nat → Nat) (st : MexState) (key : Nat)
    (bid : buffer_id_config) (st' : MexState)
    (hok : method_reset_crcs hashFn st key bid = .ok st') :
    ∃ mem' : pusch_memento, lookupKey st'.storage key = some mem' ∧
      ∃ b : combining_buffer,
        mem'.pool.find? (fun x => x.id == (⟨bid.rnti, bid.harq⟩ : trx_buffer_identifier)) =
          some b ∧
        b.nof_cb = bid.nof_codeblocks ∧
        b.crc = List.replicate bid.nof_codeblocks false ∧
        b.soft = List.replicate bid.nof_codeblocks 0 := by
  unfold method_reset_crcs at hok
  cases hget : get_memento (memHash hashFn) st.storage key with
  | none => rw [hget] at hok; exact Except.noConfusion hok
  | some mem =>
    rw [hget] at hok
    dsimp only at hok
    cases hres :
        reserve mem.cfg 0 ⟨bid.rnti, bid.harq⟩ bid.nof_codeblocks true mem.pool with
    | error e => rw [hres] at hok; exact Except.noConfusion hok
    | ok pool1 =>
      rw [hres] at hok
      obtain ⟨rest, hshape⟩ := reserve_new_data_shape hres
      subst hshape
      dsimp only at hok
      injection hok with hok
      subst hok
      refine ⟨_, lookupKey_setKey (lookup_of_get_memento hget) _, ?_⟩
      refine ⟨⟨⟨bid.rnti, bid.harq⟩, bid.nof_codeblocks, 0,
        List.replicate bid.nof_codeblocks 0, List.replicate bid.nof_codeblocks false⟩,
        ?_, rfl, rfl, rfl⟩
      simp [mkFresh, List.find?]

/-- C7 witness: the amended theorem applied to a state with a known handle 7
and an empty pool; the reservation allocates the buffer afresh and the
resulting buffer has cleared CRC flags and cleared soft data. -/
theorem method_reset_crcs_clears_buffer_witness :
    ∃ mem' : pusch_memento,
      lookupKey (MexState.storage ⟨[(7, ⟨7, cfg0,
          [⟨⟨5, 0⟩, 2, 0, [0, 0], [false, false]⟩]⟩)], 1⟩) 7 = some mem' ∧
      ∃ b : combining_buffer,
        mem'.pool.find? (fun x => x.id == (⟨5, 0⟩ : trx_buffer_identifier)) = some b ∧
        b.nof_cb = 2 ∧
        b.crc = List.replicate 2 false ∧
        b.soft = List.replicate 2 0 :=
  method_reset_crcs_clears_buffer (fun n => n) st7e 7 ⟨5, 0, 2⟩
    ⟨[(7, ⟨7, cfg0, [⟨⟨5, 0⟩, 2, 0, [0, 0], [false, false]⟩]⟩)], 1⟩ rfl

/-- C8: the dispatcher fails with the unknown-action error when no handler is
registered under the presented action name; a handler registered under a name
by `create_callback` is invoked by `dispatch` on exactly that name, with the
full input argument list forwarded unchanged, and the call's results are
whatever the handler produces.  The dispatcher itself only reads the callback
table and holds no session state (its result is the handler's result alone). -/
theorem dispatch_routes_registered_handler (cbs : List (String × handler_fn))
    (name : String) (h : handler_fn) (cbs' : List (String × handler_fn))
    (rest : List mex_arg) :
    (lookupKey cbs name = none →
      dispatch cbs (.chr name :: rest) = .error (.unknown_action name)) ∧
    (create_callback cbs name h = .ok cbs' →
      dispatch cbs' (.chr name :: rest) = h (.chr name :: rest)) := by
  constructor
  · intro hl
    unfold dispatch
    dsimp only
    rw [hl]
  · intro hc
    unfold create_callback at hc
    cases hl : lookupKey cbs name with
    | some h' => rw [hl] at hc; exact Except.noConfusion hc
    | none =>
      rw [hl] at hc
      injection hc with hc
      subst hc
      unfold dispatch
      dsimp only
      rw [lookupKey_append_right _ _ _ hl]

/-- C8 witness: dispatching an unregistered name fails with the
unknown-action error; after registering the echo handler under a name,
dispatching that name invokes the handler on the unchanged inputs. -/
theorem dispatch_routes_registered_handler_witness :
    dispatch [] [.chr act_other] = .error (.unknown_action act_other) ∧
    dispatch [(act_new, h0)] [.chr act_new, .num 3] = h0 [.chr act_new, .num 3] :=
  ⟨(dispatch_routes_registered_handler [] act_other h0 [] []).1 rfl,
   (dispatch_routes_registered_handler [] act_new h0 [(act_new, h0)] [.num 3]).2 rfl⟩

/-- C9 counterexample: with a colliding checksum function, storing a non-null
memento whose checksum equals an existing entry's key returns the checksum as
the handle but does not record the (checksum, memento) pair: `emplace` leaves
the existing entry in place. -/
theorem store_collision_not_recorded_cx :
    store (fun _ : Nat => 0) [(0, 1)] (some 2) = .ok (0, [(0, 1)]) ∧
    (0, 2) ∉ ([(0, 1)] : List (Nat × Nat)) :=
  ⟨rfl, by decide⟩

/-- C9 (amended): `store` of a null memento fails with the invalid-argument
assertion before recording anything, and `store` of a non-null memento whose
checksum is not yet a key of the store records the (checksum, memento) pair
and returns the checksum as the handle; when the checksum is already a key,
the existing entry is kept (emplace does not overwrite) though the checksum
is still returned. -/
theorem store_null_rejected_fresh_recorded {μ : Type _} (hash : μ → Nat)
    (s : List (Nat × μ)) (m : μ) :
    store hash s none = .error .invalid_argument ∧
    (lookupKey s (hash m) = none →
      store hash s (some m) = .ok (hash m, (hash m, m) :: s)) := by
  constructor
  · rfl
  · intro h
    unfold store emplace
    dsimp only
    rw [h]
    rfl

/-- C9 witness: the amended theorem applied to the identity checksum on an
empty store: null is rejected and memento 4 is recorded under key 4. -/
theorem store_null_rejected_fresh_recorded_witness :
    store (fun n : Nat => n) ([] : List (Nat × Nat)) none = .error .invalid_argument ∧
    store (fun n : Nat => n) ([] : List (Nat × Nat)) (some 4) = .ok (4, [(4, 4)]) :=
  ⟨(store_null_rejected_fresh_recorded (fun n : Nat => n) [] 4).1,
   (store_null_rejected_fresh_recorded (fun n : Nat => n) [] 4).2 rfl⟩

/-- C10: every `step` call whose transport-block length is not a whole number
of bytes fails with the byte-exactness abort; the equation holds for every
handle store state and every decode engine, so the call fails before any
handle lookup, buffer reservation or decode, and the state is unchanged (the
error return models `mex_abort`, which aborts the call without producing a
new state). -/
theorem method_step_rejects_non_byte_tbs (hashFn : Nat → Nat)
    (expectedFn : Nat → ldpc_base_graph → Nat) (decodeFn : decode_fn) (st : MexState)
    (key : Nat) (llrs : List Int) (new_data : Bool) (seg : seg_config)
    (bid : buffer_id_config) (h : seg.tbs % 8 ≠ 0) :
    method_step hashFn expectedFn decodeFn st key llrs new_data seg bid =
      .error (.tbsNotByteExact seg.tbs) := by
  unfold method_step
  rw [if_pos h]

/-- C10 witness: a 5-bit transport block is rejected as not byte-exact. -/
theorem method_step_rejects_non_byte_tbs_witness :
    method_step (fun n => n) eF1 dF0 ⟨[], 0⟩ 1 [] false ⟨.BG2, 5⟩ ⟨1, 0, 1⟩ =
      .error (.tbsNotByteExact 5) :=
  method_step_rejects_non_byte_tbs (fun n => n) eF1 dF0 ⟨[], 0⟩ 1 [] false ⟨.BG2, 5⟩
    ⟨1, 0, 1⟩ (by decide)

end SrsranMatlab
